import Mathlib

/-!
Verification development for the `kashshaf-reuse` text-reuse detection pipeline.

The Rust sources are shallowly embedded: `u32`/`usize` values become `ℕ`
(with an explicit `% 2^32` wherever a Rust `u32` operation may wrap or a cast
truncates), `i32` values become `ℤ`, `f32` values become `ℚ` (the claims under
study never depend on floating-point rounding error; where an `f32` comparison
has NaN-specific behaviour it is modelled explicitly), and fallible code
returns `Option`.  Rust's stable `sort_by_key` is modelled by Mathlib's stable
`List.insertionSort`.
-/

namespace KashshafReuse

/-! ## Machine-arithmetic helpers -/

/-- Modulus of Rust `u32` arithmetic. -/
def U32MOD : ℕ := 4294967296

/-- Wrap-around of a Rust `u32` addition or of a `usize`-to-`u32` cast. -/
def u32of (n : ℕ) : ℕ := n % U32MOD

/-- Rust `f32`-to-`u32` `as` cast: truncation toward zero, saturating below at
`0` (negative floats) and above at `u32::MAX`. -/
def f32ToU32 (q : ℚ) : ℕ := min 4294967295 ⌊q⌋.toNat

/-- Rust `f32`-to-`i32` `as` cast: truncation toward zero.  (The `i32`-range
saturation of the cast is not modelled; all scores in scope are tiny.) -/
def truncToI32 (q : ℚ) : ℤ := if 0 ≤ q then ⌊q⌋ else -⌊-q⌋

/-- Rust integer `/` on `i32`: truncated division. -/
def i32Div (a b : ℤ) : ℤ := Int.tdiv a b

/-- Rust `f32::clamp (lo, hi)`. -/
def clampQ (x lo hi : ℚ) : ℚ := if x < lo then lo else if x > hi then hi else x

/-! ## Data model (src/models.rs) -/

/-- `MatchMode` (src/models.rs). -/
inductive MatchMode where
  | Lemma
  | Root
  | Combined
deriving DecidableEq

/-- `ComparisonParams` (src/models.rs); `f32` fields are rationals. -/
structure ComparisonParams where
  window_size : ℕ
  stride : ℕ
  ngram_size : ℕ
  min_shared_shingles : ℕ
  min_length : ℕ
  min_similarity : ℚ
  match_score : ℤ
  mismatch_penalty : ℤ
  gap_penalty : ℤ
  brute_force : Bool
  mode : MatchMode
  lemma_score : ℤ
  root_score : ℤ
  use_weights : Bool
  min_weighted_similarity : Option ℚ
  min_core_similarity : Option ℚ
  min_span_coverage : Option ℚ
  min_content_weight : Option ℚ
deriving DecidableEq

/-- `PageLemmas` (src/models.rs). -/
structure PageLemmas where
  part_index : ℕ
  page_id : ℕ
  lemma_ids : List ℕ
deriving DecidableEq

/-- `BookLemmaStream` (src/models.rs). -/
structure BookLemmaStream where
  book_id : ℕ
  total_tokens : ℕ
  pages : List PageLemmas
deriving DecidableEq

/-- `BookLemmaStream::flat_lemmas`. -/
def BookLemmaStream.flat_lemmas (s : BookLemmaStream) : List ℕ :=
  (s.pages.map PageLemmas.lemma_ids).flatten

/-- `PageTokens` (src/models.rs). -/
structure PageTokens where
  part_index : ℕ
  page_id : ℕ
  token_ids : List ℕ
  lemma_ids : List ℕ
  root_ids : List ℕ
deriving DecidableEq

/-- `BookTokenStream` (src/models.rs). -/
structure BookTokenStream where
  book_id : ℕ
  total_tokens : ℕ
  pages : List PageTokens
deriving DecidableEq

/-- `BookTokenStream::flat_lemma_ids`. -/
def BookTokenStream.flat_lemma_ids (s : BookTokenStream) : List ℕ :=
  (s.pages.map PageTokens.lemma_ids).flatten

/-- `BookTokenStream::flat_root_ids`. -/
def BookTokenStream.flat_root_ids (s : BookTokenStream) : List ℕ :=
  (s.pages.map PageTokens.root_ids).flatten

/-- `Window` (src/models.rs). -/
structure Window where
  book_id : ℕ
  window_idx : ℕ
  global_start : ℕ
  global_end : ℕ
  start_page : ℕ × ℕ
  start_offset : ℕ
  end_page : ℕ × ℕ
  end_offset : ℕ
  lemma_ids : List ℕ
  root_ids : List ℕ
deriving DecidableEq

/-- `Alignment` (src/models.rs); `match_weight_sum` is an `f32`, modelled as `ℚ`. -/
structure Alignment where
  start_a : ℕ
  end_a : ℕ
  start_b : ℕ
  end_b : ℕ
  aligned_pairs : List (ℕ × ℕ)
  lemma_matches : ℕ
  substitutions : ℕ
  root_only_matches : ℕ
  gaps : ℕ
  score : ℤ
  match_weight_sum : ℚ
deriving DecidableEq

/-- `ReuseEdge` (src/models.rs); `u64`/`u32`/`usize` fields are `ℕ`, `f32`
fields are `ℚ`. -/
structure ReuseEdge where
  id : ℕ
  source_book_id : ℕ
  source_start_page : ℕ × ℕ
  source_start_offset : ℕ
  source_end_page : ℕ × ℕ
  source_end_offset : ℕ
  source_global_start : ℕ
  source_global_end : ℕ
  target_book_id : ℕ
  target_start_page : ℕ × ℕ
  target_start_offset : ℕ
  target_end_page : ℕ × ℕ
  target_end_offset : ℕ
  target_global_start : ℕ
  target_global_end : ℕ
  aligned_length : ℕ
  lemma_matches : ℕ
  substitutions : ℕ
  root_only_matches : ℕ
  gaps : ℕ
  core_similarity : ℚ
  span_coverage : ℚ
  content_weight : ℚ
  lemma_similarity : ℚ
  combined_similarity : ℚ
  weighted_similarity : ℚ
  avg_match_weight : ℚ
deriving DecidableEq

/-! ## Merger (src/merge.rs) -/

/-- `ranges_overlap` (src/merge.rs): open-interval overlap. -/
def ranges_overlap (start_a end_a start_b end_b : ℕ) : Bool :=
  decide (start_a < end_b ∧ start_b < end_a)

/-- `edges_overlap` (src/merge.rs). -/
def edges_overlap (a b : ReuseEdge) : Bool :=
  ranges_overlap a.source_global_start a.source_global_end
      b.source_global_start b.source_global_end
    && ranges_overlap a.target_global_start a.target_global_end
      b.target_global_start b.target_global_end

/-- `calculate_overlap_size` (src/merge.rs). -/
def calculate_overlap_size (start_a end_a start_b end_b : ℕ) : ℕ :=
  let overlap_start := max start_a start_b
  let overlap_end := min end_a end_b
  if overlap_start < overlap_end then overlap_end - overlap_start else 0

/-- `merge_two_edges` (src/merge.rs).  The `u32` additions and the
`usize`-to-`u32` cast wrap modulo `2^32` (`u32of`); `saturating_sub` is `ℕ`
subtraction; the `f32`-to-`u32` casts of the estimated overlap counts truncate
toward zero (`f32ToU32`). -/
def merge_two_edges (a b : ReuseEdge) : ReuseEdge :=
  let source_global_start := min a.source_global_start b.source_global_start
  let source_global_end := max a.source_global_end b.source_global_end
  let target_global_start := min a.target_global_start b.target_global_start
  let target_global_end := max a.target_global_end b.target_global_end
  let sourceStartPage :=
    if a.source_global_start ≤ b.source_global_start then
      (a.source_start_page, a.source_start_offset)
    else (b.source_start_page, b.source_start_offset)
  let sourceEndPage :=
    if a.source_global_end ≥ b.source_global_end then
      (a.source_end_page, a.source_end_offset)
    else (b.source_end_page, b.source_end_offset)
  let targetStartPage :=
    if a.target_global_start ≤ b.target_global_start then
      (a.target_start_page, a.target_start_offset)
    else (b.target_start_page, b.target_start_offset)
  let targetEndPage :=
    if a.target_global_end ≥ b.target_global_end then
      (a.target_end_page, a.target_end_offset)
    else (b.target_end_page, b.target_end_offset)
  let aligned_length := u32of (source_global_end - source_global_start)
  let overlap_source := calculate_overlap_size a.source_global_start
      a.source_global_end b.source_global_start b.source_global_end
  let combined_matches := u32of (a.lemma_matches + b.lemma_matches)
  let overlap_matches := f32ToU32 ((overlap_source : ℚ) * a.lemma_similarity)
  let lemma_matches := combined_matches - overlap_matches
  let combined_subs := u32of (a.substitutions + b.substitutions)
  let overlap_subs :=
    if 0 < a.aligned_length then
      f32ToU32 ((overlap_source : ℚ) * ((a.substitutions : ℚ) / (a.aligned_length : ℚ)))
    else 0
  let substitutions := combined_subs - overlap_subs
  let combined_root_only := u32of (a.root_only_matches + b.root_only_matches)
  let overlap_root_only :=
    if 0 < a.aligned_length then
      f32ToU32 ((overlap_source : ℚ) * ((a.root_only_matches : ℚ) / (a.aligned_length : ℚ)))
    else 0
  let root_only_matches := combined_root_only - overlap_root_only
  let combined_gaps := u32of (a.gaps + b.gaps)
  let gaps := combined_gaps / 2
  let match_sub_total := u32of (lemma_matches + substitutions)
  let core_similarity :=
    if 0 < match_sub_total then (lemma_matches : ℚ) / (match_sub_total : ℚ) else 0
  let span_coverage :=
    if 0 < aligned_length then (match_sub_total : ℚ) / (aligned_length : ℚ) else 0
  let content_weight := (a.content_weight + b.content_weight) / 2
  let lemma_similarity :=
    if 0 < aligned_length then (lemma_matches : ℚ) / (aligned_length : ℚ) else 0
  let combined_similarity :=
    if 0 < aligned_length then
      ((lemma_matches : ℚ) + (1 / 2) * (root_only_matches : ℚ)) / (aligned_length : ℚ)
    else 0
  { id := a.id
    source_book_id := a.source_book_id
    source_start_page := sourceStartPage.1
    source_start_offset := sourceStartPage.2
    source_end_page := sourceEndPage.1
    source_end_offset := sourceEndPage.2
    source_global_start := source_global_start
    source_global_end := source_global_end
    target_book_id := a.target_book_id
    target_start_page := targetStartPage.1
    target_start_offset := targetStartPage.2
    target_end_page := targetEndPage.1
    target_end_offset := targetEndPage.2
    target_global_start := target_global_start
    target_global_end := target_global_end
    aligned_length := aligned_length
    lemma_matches := lemma_matches
    substitutions := substitutions
    root_only_matches := root_only_matches
    gaps := gaps
    core_similarity := core_similarity
    span_coverage := span_coverage
    content_weight := content_weight
    lemma_similarity := lemma_similarity
    combined_similarity := combined_similarity
    weighted_similarity := (a.weighted_similarity + b.weighted_similarity) / 2
    avg_match_weight := content_weight }

/-- Sort key predicate of the overlap merge's `sort_by_key`
(`(source_book, target_book, source_global_start, target_global_start)`,
lexicographic ascending). -/
def overlapSortLE (a b : ReuseEdge) : Prop :=
  Prod.Lex (· < ·) (Prod.Lex (· < ·) (Prod.Lex (· < ·) (· ≤ ·)))
    (a.source_book_id, a.target_book_id, a.source_global_start, a.target_global_start)
    (b.source_book_id, b.target_book_id, b.source_global_start, b.target_global_start)

instance : DecidableRel overlapSortLE := by
  unfold overlapSortLE; intro a b; infer_instance

/-- One step of the overlap-merge sweep: merge the incoming edge into the
accumulator's last retained edge when book ids match and both ranges overlap,
else push it. -/
def mergeStep (acc : List ReuseEdge) (edge : ReuseEdge) : List ReuseEdge :=
  match acc.getLast? with
  | some last =>
      if last.source_book_id = edge.source_book_id
          ∧ last.target_book_id = edge.target_book_id
          ∧ edges_overlap last edge then
        acc.dropLast ++ [merge_two_edges last edge]
      else acc ++ [edge]
  | none => [edge]

/-- `merge_overlapping_edges` (src/merge.rs): sort by the four-component key
(stable), then sweep left to right. -/
def merge_overlapping_edges (edges : List ReuseEdge) : List ReuseEdge :=
  if edges.length ≤ 1 then edges
  else (List.insertionSort overlapSortLE edges).foldl mergeStep []

/-- `edges_adjacent` (src/merge.rs). -/
def edges_adjacent (a b : ReuseEdge) (max_gap : ℕ) : Bool :=
  let source_gap :=
    if b.source_global_start ≥ a.source_global_end then
      b.source_global_start - a.source_global_end
    else if a.source_global_start ≥ b.source_global_end then
      a.source_global_start - b.source_global_end
    else 0
  let target_gap :=
    if b.target_global_start ≥ a.target_global_end then
      b.target_global_start - a.target_global_end
    else if a.target_global_start ≥ b.target_global_end then
      a.target_global_start - b.target_global_end
    else 0
  decide (source_gap ≤ max_gap ∧ target_gap ≤ max_gap)

/-- Sort key predicate of the adjacency merge and of the final positional
re-sort in the subsumption filter
(`(source_book, target_book, source_global_start)`, lexicographic ascending). -/
def positionSortLE (a b : ReuseEdge) : Prop :=
  Prod.Lex (· < ·) (Prod.Lex (· < ·) (· ≤ ·))
    (a.source_book_id, a.target_book_id, a.source_global_start)
    (b.source_book_id, b.target_book_id, b.source_global_start)

instance : DecidableRel positionSortLE := by
  unfold positionSortLE; intro a b; infer_instance

/-- One step of the adjacency-merge sweep. -/
def adjacentStep (max_gap : ℕ) (acc : List ReuseEdge) (edge : ReuseEdge) :
    List ReuseEdge :=
  match acc.getLast? with
  | some last =>
      if last.source_book_id = edge.source_book_id
          ∧ last.target_book_id = edge.target_book_id
          ∧ edges_adjacent last edge max_gap then
        acc.dropLast ++ [merge_two_edges last edge]
      else acc ++ [edge]
  | none => [edge]

/-- `merge_adjacent_edges` (src/merge.rs). -/
def merge_adjacent_edges (edges : List ReuseEdge) (max_gap : ℕ) : List ReuseEdge :=
  if edges.length ≤ 1 then edges
  else (List.insertionSort positionSortLE edges).foldl (adjacentStep max_gap) []

/-- The subsumption test of `remove_subsumed_edges` (src/merge.rs): `existing`
subsumes `edge`. -/
def subsumes (existing edge : ReuseEdge) : Bool :=
  decide (existing.source_book_id = edge.source_book_id
    ∧ existing.target_book_id = edge.target_book_id
    ∧ existing.source_global_start ≤ edge.source_global_start
    ∧ existing.source_global_end ≥ edge.source_global_end
    ∧ existing.target_global_start ≤ edge.target_global_start
    ∧ existing.target_global_end ≥ edge.target_global_end)

/-- Sort predicate of the subsumption filter's first sort:
`aligned_length` descending (stable). -/
def alignedLenDescLE (a b : ReuseEdge) : Prop :=
  b.aligned_length ≤ a.aligned_length

instance : DecidableRel alignedLenDescLE := by
  unfold alignedLenDescLE; intro a b; infer_instance

instance : IsTotal ReuseEdge alignedLenDescLE :=
  ⟨fun a b => Nat.le_total b.aligned_length a.aligned_length⟩

instance : IsTrans ReuseEdge alignedLenDescLE :=
  ⟨fun _ _ _ hab hbc => Nat.le_trans hbc hab⟩

/-- The retention sweep of `remove_subsumed_edges`. -/
def retainStep (acc : List ReuseEdge) (edge : ReuseEdge) : List ReuseEdge :=
  if acc.any (fun existing => subsumes existing edge) then acc else acc ++ [edge]

/-- `remove_subsumed_edges` (src/merge.rs): sort by `aligned_length`
descending, retain edges not contained in an already-retained edge of the same
book pair, then re-sort by position. -/
def remove_subsumed_edges (edges : List ReuseEdge) : List ReuseEdge :=
  if edges.length ≤ 1 then edges
  else
    List.insertionSort positionSortLE
      ((List.insertionSort alignedLenDescLE edges).foldl retainStep [])

/-! ## Windower (src/window.rs) -/

/-- `PageOffset` (src/window.rs). -/
structure PageOffset where
  part_index : ℕ
  page_id : ℕ
  start_offset : ℕ
  end_offset : ℕ
deriving DecidableEq

/-- `build_page_offsets` (src/window.rs); also models
`build_page_offsets_from_tokens`, which is textually identical. -/
def build_page_offsets (pages : List (ℕ × ℕ × ℕ)) : List PageOffset :=
  (pages.foldl (fun (acc : List PageOffset × ℕ) page =>
    let end_offset := acc.2 + page.2.2
    (acc.1 ++ [⟨page.1, page.2.1, acc.2, end_offset⟩], end_offset)) ([], 0)).1

/-- `find_page_and_offset` (src/window.rs).  The source binary-searches the
sorted, contiguous page ranges for the unique page whose
`[start_offset, end_offset)` contains `pos`; this is modelled extensionally by
`List.find?`.  The `unwrap_or_else` fallback (no page contains `pos`) clamps
the insertion point to the last page; it is only reached for positions at or
beyond the end of the stream. -/
def find_page_and_offset (page_offsets : List PageOffset) (pos : ℕ) : (ℕ × ℕ) × ℕ :=
  match page_offsets.find?
      (fun o => decide (o.start_offset ≤ pos ∧ pos < o.end_offset)) with
  | some o => ((o.part_index, o.page_id), pos - o.start_offset)
  | none =>
    match page_offsets.getLast? with
    | some o => ((o.part_index, o.page_id), pos - o.start_offset)
    | none => ((0, 0), 0)

/-- The stride loop of `generate_windows` / `generate_windows_with_roots`
(src/window.rs), returning the emitted windows together with the final values
of `start` and `window_idx`.  The recursion is fuel-bounded: with
`stride ≥ 1` (a driver precondition) the loop runs at most
`flat.length + 1` times, so fuel `flat.length + 1` never runs out; with
`stride = 0` the source loop does not terminate at all. -/
def windowLoop (flat : List ℕ) (rootsAt : ℕ → ℕ → List ℕ) (po : List PageOffset)
    (book_id window_size stride : ℕ) :
    ℕ → ℕ → ℕ → List Window × ℕ × ℕ
  | 0, start, window_idx => ([], start, window_idx)
  | fuel + 1, start, window_idx =>
    if start + window_size ≤ flat.length then
      let e := start + window_size
      let sp := find_page_and_offset po start
      let ep := find_page_and_offset po (e - 1)
      let w : Window :=
        ⟨book_id, window_idx, start, e, sp.1, sp.2, ep.1, ep.2,
          (flat.drop start).take window_size, rootsAt start e⟩
      let rest := windowLoop flat rootsAt po book_id window_size stride fuel
        (start + stride) (window_idx + 1)
      (w :: rest.1, rest.2.1, rest.2.2)
    else ([], start, window_idx)

/-- Common core of `generate_windows` and `generate_windows_with_roots`
(src/window.rs): the two functions differ only in how the `root_ids` of a
window are produced (`smallRoots` for the single small-stream window,
`rootsAt start end` for sliced windows). -/
def generate_windows_core (flat : List ℕ) (smallRoots : List ℕ)
    (rootsAt : ℕ → ℕ → List ℕ) (po : List PageOffset) (book_id : ℕ)
    (p : ComparisonParams) : List Window :=
  if flat.length = 0 then []
  else if flat.length < p.window_size then
    let sp := find_page_and_offset po 0
    let ep := find_page_and_offset po (flat.length - 1)
    [⟨book_id, 0, 0, flat.length, sp.1, sp.2, ep.1, ep.2, flat, smallRoots⟩]
  else
    let r := windowLoop flat rootsAt po book_id p.window_size p.stride
      (flat.length + 1) 0 0
    let start := r.2.1
    if start < flat.length ∧ p.min_length ≤ flat.length - start then
      let sp := find_page_and_offset po start
      let ep := find_page_and_offset po (flat.length - 1)
      r.1 ++ [⟨book_id, r.2.2, start, flat.length, sp.1, sp.2, ep.1, ep.2,
        flat.drop start, rootsAt start flat.length⟩]
    else r.1

/-- `generate_windows` (src/window.rs): lemma-stream windows with all-zero
`root_ids` (`vec![0; len]`). -/
def generate_windows (stream : BookLemmaStream) (p : ComparisonParams) :
    List Window :=
  let flat := stream.flat_lemmas
  generate_windows_core flat (List.replicate flat.length 0)
    (fun s e => List.replicate (e - s) 0)
    (build_page_offsets (stream.pages.map
      (fun pg => (pg.part_index, pg.page_id, pg.lemma_ids.length))))
    stream.book_id p

/-- `generate_windows_with_roots` (src/window.rs): token-stream windows whose
`root_ids` are the matching slices of the flat root stream (the root stream is
page-parallel to the lemma stream, so the slices below match the source's
`flat_roots[start..end]`). -/
def generate_windows_with_roots (stream : BookTokenStream) (p : ComparisonParams) :
    List Window :=
  let flat := stream.flat_lemma_ids
  let flat_roots := stream.flat_root_ids
  generate_windows_core flat flat_roots
    (fun s e => (flat_roots.drop s).take (e - s))
    (build_page_offsets (stream.pages.map
      (fun pg => (pg.part_index, pg.page_id, pg.lemma_ids.length))))
    stream.book_id p

/-! ## Shingler and candidate filter (src/filter.rs) -/

/-- `generate_shingles` (src/filter.rs): the set of distinct contiguous
`n`-grams of the lemma sequence (a `HashSet` in the source). -/
def generate_shingles (lemma_ids : List ℕ) (n : ℕ) : Finset (List ℕ) :=
  if lemma_ids.length < n ∨ n = 0 then ∅
  else ((List.range (lemma_ids.length - n + 1)).map
    (fun i => (lemma_ids.drop i).take n)).toFinset

/-- The inverted shingle index of `build_shingle_index` (src/filter.rs),
modelled extensionally: the posting list of a shingle is exactly the list of
indices of windows whose shingle set contains it (each window contributes each
of its distinct shingles once). -/
def shingle_index (windows : List Window) (ngram_size : ℕ) (s : List ℕ) :
    List ℕ :=
  (List.range windows.length).filter (fun idx =>
    match windows.get? idx with
    | some w => decide (s ∈ generate_shingles w.lemma_ids ngram_size)
    | none => false)

/-- The per-window-pair count accumulated in `shared_counts`
(src/filter.rs, `find_candidate_pairs`): the number of distinct shingles of
`window_a` whose posting list contains `idx_b`. -/
def shared_count (window_a : Window) (windows_b : List Window)
    (ngram_size idx_b : ℕ) : ℕ :=
  ((generate_shingles window_a.lemma_ids ngram_size).filter
    (fun s => idx_b ∈ shingle_index windows_b ngram_size s)).card

/-- `generate_all_pairs` (src/filter.rs). -/
def generate_all_pairs (len_a len_b : ℕ) : List (ℕ × ℕ) :=
  (List.range len_a).flatMap (fun i => (List.range len_b).map (fun j => (i, j)))

/-- `find_candidate_pairs` (src/filter.rs).  The `shared_counts` `HashMap`
holds an entry for `idx_b` exactly when at least one probe hit it (count ≥ 1);
its iteration order is unspecified, so emission is modelled in index order. -/
def find_candidate_pairs (windows_a windows_b : List Window)
    (params : ComparisonParams) : List (ℕ × ℕ) :=
  if params.brute_force then generate_all_pairs windows_a.length windows_b.length
  else
    (List.range windows_a.length).flatMap (fun idx_a =>
      match windows_a.get? idx_a with
      | none => []
      | some window_a =>
        ((List.range windows_b.length).filter (fun idx_b =>
          let c := shared_count window_a windows_b params.ngram_size idx_b
          decide (0 < c ∧ params.min_shared_shingles ≤ c))).map
          (fun idx_b => (idx_a, idx_b)))

/-! ## Aligner (src/align.rs) -/

/-- `calculate_match_score` (src/align.rs). -/
def calculate_match_score (lemma_a lemma_b root_a root_b : ℕ)
    (params : ComparisonParams) : ℤ :=
  match params.mode with
  | .Lemma =>
    if lemma_a = lemma_b then params.lemma_score else params.mismatch_penalty
  | .Root =>
    if root_a = root_b ∧ root_a ≠ 0 then params.lemma_score
    else params.mismatch_penalty
  | .Combined =>
    if lemma_a = lemma_b then params.lemma_score
    else if root_a = root_b ∧ root_a ≠ 0 then params.root_score
    else params.mismatch_penalty

/-- `get_weight` (src/align.rs). -/
def get_weight (lemma_id : ℕ) (weights : List ℚ) : ℚ :=
  if lemma_id < weights.length ∧ 0 < weights.getD lemma_id 0 then
    weights.getD lemma_id 0
  else 1

/-- `calculate_weighted_match_score` (src/align.rs); the
`(lemma_score as f32 * w) as i32` cast truncates toward zero. -/
def calculate_weighted_match_score (lemma_a lemma_b root_a root_b : ℕ)
    (weights_a weights_b : List ℚ) (params : ComparisonParams) : ℤ :=
  match params.mode with
  | .Lemma =>
    if lemma_a = lemma_b then
      let w := min (get_weight lemma_a weights_a) (get_weight lemma_b weights_b)
      truncToI32 ((params.lemma_score : ℚ) * w)
    else params.mismatch_penalty
  | .Root =>
    if root_a = root_b ∧ root_a ≠ 0 then params.lemma_score
    else params.mismatch_penalty
  | .Combined =>
    if lemma_a = lemma_b then
      let w := min (get_weight lemma_a weights_a) (get_weight lemma_b weights_b)
      truncToI32 ((params.lemma_score : ℚ) * w)
    else if root_a = root_b ∧ root_a ≠ 0 then params.root_score
    else params.mismatch_penalty

/-- Matrix read `h[i * width + j]` of the row-major DP buffer, with the rows
represented as a list of lists (`H[0][·] = H[·][0] = 0` included). -/
def getH (rows : List (List ℤ)) (i j : ℕ) : ℤ := (rows.getD i []).getD j 0

/-- One row (`j = 1..m`) of the Smith-Waterman fill loop: the row starts with
the `j = 0` entry `0`, and each cell is
`max (0, diagonal + s(i,j), up + gap, left + gap)`. -/
def fillRow (score : ℕ → ℕ → ℤ) (gap : ℤ) (prev : List ℤ) (i m : ℕ) : List ℤ :=
  (List.range m).foldl (fun row j0 =>
    let j := j0 + 1
    let diagonal := prev.getD (j - 1) 0 + score i j
    let up := prev.getD j 0 + gap
    let left := row.getD (j - 1) 0 + gap
    row ++ [max 0 (max diagonal (max up left))]) [0]

/-- The full DP fill loop (`i = 1..n`) of `align_sequences` /
`align_sequences_weighted`, starting from the all-zero row `i = 0`. -/
def buildH (score : ℕ → ℕ → ℤ) (gap : ℤ) (n m : ℕ) : List (List ℤ) :=
  (List.range n).foldl (fun rows i0 =>
    let i := i0 + 1
    rows ++ [fillRow score gap (rows.getD (i - 1) []) i m])
    [List.replicate (m + 1) 0]

/-- The running-argmax tracking of the fill loop: scan cells in row-major
order `i = 1..n`, `j = 1..m` and update `(max_score, max_i, max_j)` on strict
improvement (ties keep the first occurrence), starting from `(0, 0, 0)`. -/
def findMaxCell (rows : List (List ℤ)) (n m : ℕ) : ℤ × ℕ × ℕ :=
  (List.range n).foldl (fun acc i0 =>
    (List.range m).foldl (fun acc j0 =>
      let i := i0 + 1
      let j := j0 + 1
      let s := getH rows i j
      if acc.1 < s then (s, i, j) else acc) acc) (0, 0, 0)

/-- Mutable state of the traceback loop; `aligned_pairs` is in traceback
(reverse) order, exactly as the source's vector before its final `reverse`. -/
structure TracebackState where
  aligned_pairs : List (ℕ × ℕ)
  lemma_matches : ℕ
  substitutions : ℕ
  root_only_matches : ℕ
  gaps : ℕ
  match_weight_sum : ℚ
deriving DecidableEq

/-- The traceback `while` loop of `align_sequences` (src/align.rs): from the
argmax cell, recompute the scores and step diagonal / up / left, classifying
each diagonal step as lemma match, root-only match, or substitution. -/
def tracebackAux (rows : List (List ℤ)) (lemmas_a lemmas_b roots_a roots_b : List ℕ)
    (params : ComparisonParams) : ℕ → ℕ → TracebackState → TracebackState
  | i, j, st =>
    if h : 0 < i ∧ 0 < j ∧ 0 < getH rows i j then
      let current := getH rows i j
      let diagonal := getH rows (i - 1) (j - 1)
      let up := getH rows (i - 1) j
      let lemma_a := lemmas_a.getD (i - 1) 0
      let lemma_b := lemmas_b.getD (j - 1) 0
      let root_a := roots_a.getD (i - 1) 0
      let root_b := roots_b.getD (j - 1) 0
      let match_score := calculate_match_score lemma_a lemma_b root_a root_b params
      if current = diagonal + match_score then
        let st' :=
          if lemma_a = lemma_b then
            { st with
              aligned_pairs := st.aligned_pairs ++ [(i - 1, j - 1)]
              lemma_matches := st.lemma_matches + 1 }
          else if root_a = root_b ∧ root_a ≠ 0 then
            { st with
              aligned_pairs := st.aligned_pairs ++ [(i - 1, j - 1)]
              root_only_matches := st.root_only_matches + 1 }
          else
            { st with
              aligned_pairs := st.aligned_pairs ++ [(i - 1, j - 1)]
              substitutions := st.substitutions + 1 }
        tracebackAux rows lemmas_a lemmas_b roots_a roots_b params (i - 1) (j - 1) st'
      else if current = up + params.gap_penalty then
        tracebackAux rows lemmas_a lemmas_b roots_a roots_b params (i - 1) j
          { st with gaps := st.gaps + 1 }
      else
        tracebackAux rows lemmas_a lemmas_b roots_a roots_b params i (j - 1)
          { st with gaps := st.gaps + 1 }
    else st
termination_by i j => i + j
decreasing_by
  · omega
  · omega
  · omega

/-- `count_root_matches` (src/align.rs); the two lemma-sequence arguments are
unused in the source as well. -/
def count_root_matches (aligned_pairs : List (ℕ × ℕ))
    (_lemmas_a _lemmas_b roots_a roots_b : List ℕ) : ℕ :=
  (aligned_pairs.filter (fun pr =>
    decide (roots_a.getD pr.1 0 = roots_b.getD pr.2 0 ∧ roots_a.getD pr.1 0 ≠ 0))).length

/-- `align_sequences` (src/align.rs).  The `min_score_threshold` match has
three identical arms in the source, modelled as the single expression
`(min_length * lemma_score) / 2` under `i32` (truncated) division.  The
similarity gate divides by `aligned_pairs.len()`; in `f32` a `0/0` similarity
is NaN and `NaN < min_similarity` is false, so the gate can only reject when
the pair list is nonempty — the model states this explicitly. -/
def align_sequences (lemmas_a lemmas_b roots_a roots_b : List ℕ)
    (params : ComparisonParams) : Option Alignment :=
  let n := lemmas_a.length
  let m := lemmas_b.length
  if n = 0 ∨ m = 0 then none
  else
    let score := fun i j =>
      calculate_match_score (lemmas_a.getD (i - 1) 0) (lemmas_b.getD (j - 1) 0)
        (roots_a.getD (i - 1) 0) (roots_b.getD (j - 1) 0) params
    let rows := buildH score params.gap_penalty n m
    let mx := findMaxCell rows n m
    let min_score_threshold := i32Div ((params.min_length : ℤ) * params.lemma_score) 2
    if mx.1 < min_score_threshold then none
    else
      let tb := tracebackAux rows lemmas_a lemmas_b roots_a roots_b params
        mx.2.1 mx.2.2 ⟨[], 0, 0, 0, 0, 0⟩
      let aligned_pairs := tb.aligned_pairs.reverse
      if aligned_pairs.length < params.min_length then none
      else
        let similarity : ℚ :=
          match params.mode with
          | .Lemma => (tb.lemma_matches : ℚ) / (aligned_pairs.length : ℚ)
          | .Root =>
            (count_root_matches aligned_pairs lemmas_a lemmas_b roots_a roots_b : ℚ) /
              (aligned_pairs.length : ℚ)
          | .Combined =>
            ((tb.lemma_matches : ℚ) + (1 / 2) * (tb.root_only_matches : ℚ)) /
              (aligned_pairs.length : ℚ)
        if 0 < aligned_pairs.length ∧ similarity < params.min_similarity then none
        else
          let sAB := (aligned_pairs.head?).getD (0, 0)
          let eAB := (aligned_pairs.getLast?).getD (0, 0)
          some {
            start_a := sAB.1
            end_a := eAB.1 + 1
            start_b := sAB.2
            end_b := eAB.2 + 1
            aligned_pairs := aligned_pairs
            lemma_matches := tb.lemma_matches
            substitutions := tb.substitutions
            root_only_matches := tb.root_only_matches
            gaps := tb.gaps
            score := mx.1
            match_weight_sum := 0 }

/-- The traceback `while` loop of `align_sequences_weighted` (src/align.rs):
as `tracebackAux`, but scores with `calculate_weighted_match_score` and
accumulates `match_weight_sum += min(w_a, w_b)` on lemma matches. -/
def tracebackWAux (rows : List (List ℤ)) (lemmas_a lemmas_b roots_a roots_b : List ℕ)
    (weights_a weights_b : List ℚ) (params : ComparisonParams) :
    ℕ → ℕ → TracebackState → TracebackState
  | i, j, st =>
    if h : 0 < i ∧ 0 < j ∧ 0 < getH rows i j then
      let current := getH rows i j
      let diagonal := getH rows (i - 1) (j - 1)
      let up := getH rows (i - 1) j
      let lemma_a := lemmas_a.getD (i - 1) 0
      let lemma_b := lemmas_b.getD (j - 1) 0
      let root_a := roots_a.getD (i - 1) 0
      let root_b := roots_b.getD (j - 1) 0
      let match_score := calculate_weighted_match_score lemma_a lemma_b root_a
        root_b weights_a weights_b params
      if current = diagonal + match_score then
        let st' :=
          if lemma_a = lemma_b then
            { st with
              aligned_pairs := st.aligned_pairs ++ [(i - 1, j - 1)]
              lemma_matches := st.lemma_matches + 1
              match_weight_sum := st.match_weight_sum +
                min (get_weight lemma_a weights_a) (get_weight lemma_b weights_b) }
          else if root_a = root_b ∧ root_a ≠ 0 then
            { st with
              aligned_pairs := st.aligned_pairs ++ [(i - 1, j - 1)]
              root_only_matches := st.root_only_matches + 1 }
          else
            { st with
              aligned_pairs := st.aligned_pairs ++ [(i - 1, j - 1)]
              substitutions := st.substitutions + 1 }
        tracebackWAux rows lemmas_a lemmas_b roots_a roots_b weights_a weights_b
          params (i - 1) (j - 1) st'
      else if current = up + params.gap_penalty then
        tracebackWAux rows lemmas_a lemmas_b roots_a roots_b weights_a weights_b
          params (i - 1) j { st with gaps := st.gaps + 1 }
      else
        tracebackWAux rows lemmas_a lemmas_b roots_a roots_b weights_a weights_b
          params i (j - 1) { st with gaps := st.gaps + 1 }
    else st
termination_by i j => i + j
decreasing_by
  · omega
  · omega
  · omega

/-- `align_sequences_weighted` (src/align.rs). -/
def align_sequences_weighted (lemmas_a lemmas_b roots_a roots_b : List ℕ)
    (weights_a weights_b : List ℚ) (params : ComparisonParams) :
    Option Alignment :=
  let n := lemmas_a.length
  let m := lemmas_b.length
  if n = 0 ∨ m = 0 then none
  else
    let score := fun i j =>
      calculate_weighted_match_score (lemmas_a.getD (i - 1) 0)
        (lemmas_b.getD (j - 1) 0) (roots_a.getD (i - 1) 0)
        (roots_b.getD (j - 1) 0) weights_a weights_b params
    let rows := buildH score params.gap_penalty n m
    let mx := findMaxCell rows n m
    let min_score_threshold := i32Div ((params.min_length : ℤ) * params.lemma_score) 2
    if mx.1 < min_score_threshold then none
    else
      let tb := tracebackWAux rows lemmas_a lemmas_b roots_a roots_b weights_a
        weights_b params mx.2.1 mx.2.2 ⟨[], 0, 0, 0, 0, 0⟩
      let aligned_pairs := tb.aligned_pairs.reverse
      if aligned_pairs.length < params.min_length then none
      else
        let similarity : ℚ :=
          match params.mode with
          | .Lemma => (tb.lemma_matches : ℚ) / (aligned_pairs.length : ℚ)
          | .Root =>
            (count_root_matches aligned_pairs lemmas_a lemmas_b roots_a roots_b : ℚ) /
              (aligned_pairs.length : ℚ)
          | .Combined =>
            ((tb.lemma_matches : ℚ) + (1 / 2) * (tb.root_only_matches : ℚ)) /
              (aligned_pairs.length : ℚ)
        if 0 < aligned_pairs.length ∧ similarity < params.min_similarity then none
        else
          let sAB := (aligned_pairs.head?).getD (0, 0)
          let eAB := (aligned_pairs.getLast?).getD (0, 0)
          some {
            start_a := sAB.1
            end_a := eAB.1 + 1
            start_b := sAB.2
            end_b := eAB.2 + 1
            aligned_pairs := aligned_pairs
            lemma_matches := tb.lemma_matches
            substitutions := tb.substitutions
            root_only_matches := tb.root_only_matches
            gaps := tb.gaps
            score := mx.1
            match_weight_sum := tb.match_weight_sum }

/-! ## Document-internal IDF weights (src/compare.rs) -/

/-- One step of the document-frequency counting loop of `build_lemma_weights`
(src/compare.rs): bump `counts[id]` when `id` is in range. -/
def bumpCount (counts : List ℕ) (id : ℕ) : List ℕ :=
  if id < counts.length then counts.set id (counts.getD id 0 + 1) else counts

/-- `build_lemma_weights` (src/compare.rs), parametrized by the `f32` natural
logarithm `lg` (transcendental, hence not exactly representable in `ℚ`; every
theorem about this function below holds for an arbitrary `lg`, in particular
for the value computed by `f32::ln`).  Lemmas with document frequency `0` keep
the initial weight `0.0`. -/
def build_lemma_weights (lg : ℚ → ℚ) (lemma_ids : List ℕ) (max_lemma_id : ℕ) :
    List ℚ :=
  let counts := lemma_ids.foldl bumpCount (List.replicate (max_lemma_id + 1) 0)
  let total : ℚ := (lemma_ids.length : ℚ)
  counts.map (fun df : ℕ =>
    if 0 < df then clampQ (lg (total / (df : ℚ))) (1 / 2) 3 else (0 : ℚ))

/-! ## Edge builder and comparison pipeline (src/compare.rs) -/

/-- `alignment_to_edge` (src/compare.rs).  The edge id comes from a
process-wide atomic counter in the source (`EDGE_COUNTER.fetch_add`); it is
passed as a parameter here, since no claim in scope depends on id values. -/
def alignment_to_edge (window_a window_b : Window) (alignment : Alignment)
    (id : ℕ) : ReuseEdge :=
  let aligned_length := u32of (alignment.aligned_pairs.length + alignment.gaps)
  let match_sub_total := u32of (alignment.lemma_matches + alignment.substitutions)
  let core_similarity :=
    if 0 < match_sub_total then
      (alignment.lemma_matches : ℚ) / (match_sub_total : ℚ)
    else 0
  let span_coverage :=
    if 0 < aligned_length then (match_sub_total : ℚ) / (aligned_length : ℚ)
    else 0
  let content_weight :=
    if 0 < alignment.lemma_matches then
      alignment.match_weight_sum / (alignment.lemma_matches : ℚ)
    else 0
  let lemma_similarity :=
    if 0 < aligned_length then
      (alignment.lemma_matches : ℚ) / (aligned_length : ℚ)
    else 0
  let combined_similarity :=
    if 0 < aligned_length then
      ((alignment.lemma_matches : ℚ) + (1 / 2) * (alignment.root_only_matches : ℚ)) /
        (aligned_length : ℚ)
    else 0
  let weighted_similarity :=
    if 0 < aligned_length then alignment.match_weight_sum / (aligned_length : ℚ)
    else 0
  { id := id
    source_book_id := window_a.book_id
    source_start_page := window_a.start_page
    source_start_offset := u32of (window_a.start_offset + alignment.start_a)
    source_end_page := window_a.end_page
    source_end_offset := u32of (window_a.start_offset + alignment.end_a)
    source_global_start := window_a.global_start + alignment.start_a
    source_global_end := window_a.global_start + alignment.end_a
    target_book_id := window_b.book_id
    target_start_page := window_b.start_page
    target_start_offset := u32of (window_b.start_offset + alignment.start_b)
    target_end_page := window_b.end_page
    target_end_offset := u32of (window_b.start_offset + alignment.end_b)
    target_global_start := window_b.global_start + alignment.start_b
    target_global_end := window_b.global_start + alignment.end_b
    aligned_length := aligned_length
    lemma_matches := alignment.lemma_matches
    substitutions := alignment.substitutions
    root_only_matches := alignment.root_only_matches
    gaps := alignment.gaps
    core_similarity := core_similarity
    span_coverage := span_coverage
    content_weight := content_weight
    lemma_similarity := lemma_similarity
    combined_similarity := combined_similarity
    weighted_similarity := weighted_similarity
    avg_match_weight := content_weight }

/-- `filter_edges_by_params` (src/compare.rs): for each optional metric
threshold that is set, drop edges strictly below it. -/
def filter_edges_by_params (edges : List ReuseEdge) (params : ComparisonParams) :
    List ReuseEdge :=
  edges.filter (fun edge =>
    (match params.min_weighted_similarity with
      | some mn => !decide (edge.weighted_similarity < mn)
      | none => true)
    && (match params.min_core_similarity with
      | some mn => !decide (edge.core_similarity < mn)
      | none => true)
    && (match params.min_span_coverage with
      | some mn => !decide (edge.span_coverage < mn)
      | none => true)
    && (match params.min_content_weight with
      | some mn => !decide (edge.content_weight < mn)
      | none => true))

/-- The edge-producing core of `compare_books_from_streams` (src/compare.rs):
windowing, candidate filtering, alignment of each candidate pair
(`candidates.par_iter().filter_map(...)`; emission order is unspecified in the
source and modelled sequentially), overlap merge, and metric filtering.
Database loading and progress display are omitted; edge ids (a process-wide
atomic counter in the source) are numbered `0` — no claim in scope depends on
them. -/
def compare_edges (stream_a stream_b : BookLemmaStream)
    (params : ComparisonParams) : List ReuseEdge :=
  let windows_a := generate_windows stream_a params
  let windows_b := generate_windows stream_b params
  let candidates := find_candidate_pairs windows_a windows_b params
  let edges := candidates.filterMap (fun pr =>
    match windows_a.get? pr.1, windows_b.get? pr.2 with
    | some wa, some wb =>
      (align_sequences wa.lemma_ids wb.lemma_ids wa.root_ids wb.root_ids
        params).map (fun al => alignment_to_edge wa wb al 0)
    | _, _ => none)
  filter_edges_by_params (merge_overlapping_edges edges) params

/-! ## Concrete fixtures for witnesses and counterexamples -/

/-- The `Default` parameter values of `ComparisonParams` (src/models.rs);
`0.4` is written as the rational `2/5`. -/
def defaultParams : ComparisonParams :=
  { window_size := 275
    stride := 60
    ngram_size := 5
    min_shared_shingles := 3
    min_length := 10
    min_similarity := 2 / 5
    match_score := 2
    mismatch_penalty := -1
    gap_penalty := -1
    brute_force := false
    mode := .Lemma
    lemma_score := 2
    root_score := 1
    use_weights := true
    min_weighted_similarity := none
    min_core_similarity := none
    min_span_coverage := none
    min_content_weight := none }

/-- Edge template for concrete tests (book pair `(1, 2)`). -/
def baseEdge : ReuseEdge :=
  { id := 0
    source_book_id := 1
    source_start_page := (1, 1)
    source_start_offset := 0
    source_end_page := (1, 1)
    source_end_offset := 0
    source_global_start := 0
    source_global_end := 0
    target_book_id := 2
    target_start_page := (1, 1)
    target_start_offset := 0
    target_end_page := (1, 1)
    target_end_offset := 0
    target_global_start := 0
    target_global_end := 0
    aligned_length := 0
    lemma_matches := 0
    substitutions := 0
    root_only_matches := 0
    gaps := 0
    core_similarity := 1
    span_coverage := 1
    content_weight := 1
    lemma_similarity := 1
    combined_similarity := 1
    weighted_similarity := 1
    avg_match_weight := 1 }

/-- C1 fixture: edge with source/target `[0, 10)`, 8 lemma matches,
`lemma_similarity = 3/4` (so the truncated and rounded overlap estimates
differ at overlap `5`: `⌊3.75⌋ = 3` vs `round 3.75 = 4`). -/
def c1a : ReuseEdge :=
  { baseEdge with
    id := 1
    source_global_end := 10
    target_global_end := 10
    aligned_length := 10
    lemma_matches := 8
    lemma_similarity := 3 / 4 }

/-- C1 fixture: edge with source/target `[5, 15)`, 8 lemma matches. -/
def c1b : ReuseEdge :=
  { baseEdge with
    id := 2
    source_global_start := 5
    source_global_end := 15
    target_global_start := 5
    target_global_end := 15
    aligned_length := 10
    lemma_matches := 8 }

/-- C3 fixture: three edges of one book pair.  The first two overlap in
source only; the third overlaps the second in both ranges, and merging it
into the second extends the second backwards over the first in target, so the
merge output `[e1, e2+e3]` is itself mergeable. -/
def c3edges : List ReuseEdge :=
  [{ baseEdge with
      id := 1
      source_global_end := 10
      target_global_start := 100
      target_global_end := 110 },
   { baseEdge with
      id := 2
      source_global_start := 5
      source_global_end := 15
      target_global_start := 200
      target_global_end := 210 },
   { baseEdge with
      id := 3
      source_global_start := 6
      source_global_end := 16
      target_global_start := 105
      target_global_end := 205 }]

/-- C9 fixture: edge with ranges `[0,10) × [0,5)` but (inconsistent) stored
`aligned_length = 100`, processed first by the descending sort. -/
def c9f : ReuseEdge :=
  { baseEdge with
    id := 1
    source_global_end := 10
    target_global_end := 5
    aligned_length := 100 }

/-- C9 fixture: edge with ranges `[0,10) × [0,10)` containing `c9f`, but with
smaller stored `aligned_length = 50`, so it is processed after `c9f` and is
not subsumed by it. -/
def c9e : ReuseEdge :=
  { baseEdge with
    id := 2
    source_global_end := 10
    target_global_end := 10
    aligned_length := 50 }

/-- C2 fixture: a one-page stream of 3 lemmas (below both `min_length = 10`
and `window_size = 275` of the default parameters). -/
def c2stream : BookLemmaStream := ⟨1, 3, [⟨1, 1, [5, 6, 7]⟩]⟩

/-- C2 fixture: the same 3 lemmas as a token stream with roots. -/
def c2tstream : BookTokenStream :=
  ⟨1, 3, [⟨1, 1, [5, 6, 7], [5, 6, 7], [1, 1, 1]⟩]⟩

/-- An empty lemma stream (no pages). -/
def emptyStream : BookLemmaStream := ⟨7, 0, []⟩

/-- C4 fixture: parameters with the degenerate `min_length = 0`; the default
similarity gate `min_similarity = 1/2` stays. -/
def c4params : ComparisonParams :=
  { defaultParams with min_length := 0, min_similarity := 1 / 2 }

/-- C4 fixture: the empty alignment accepted by `align_sequences [1] [2] …`
under `c4params` (the argmax stays at `(0,0)`, the traceback is empty, and
the `0/0` similarity is NaN in `f32`, which passes the `<` gate). -/
def c4al : Alignment :=
  { start_a := 0
    end_a := 1
    start_b := 0
    end_b := 1
    aligned_pairs := []
    lemma_matches := 0
    substitutions := 0
    root_only_matches := 0
    gaps := 0
    score := 0
    match_weight_sum := 0 }

/-- C5 fixture: parameters accepting the diagonal alignment of `[1,2,3]`
against itself. -/
def c5params : ComparisonParams :=
  { defaultParams with min_length := 2, min_similarity := 1 / 2 }

/-- C5 fixture: the alignment of `[1,2,3]` against itself under `c5params`. -/
def c5al : Alignment :=
  { start_a := 0
    end_a := 3
    start_b := 0
    end_b := 3
    aligned_pairs := [(0, 0), (1, 1), (2, 2)]
    lemma_matches := 3
    substitutions := 0
    root_only_matches := 0
    gaps := 0
    score := 6
    match_weight_sum := 0 }

/-- Window template for concrete tests. -/
def mkWindow (idx : ℕ) (lemmas : List ℕ) : Window :=
  { book_id := 1
    window_idx := idx
    global_start := 0
    global_end := lemmas.length
    start_page := (1, 1)
    start_offset := 0
    end_page := (1, 1)
    end_offset := 0
    lemma_ids := lemmas
    root_ids := List.replicate lemmas.length 0 }

/-- C7 fixture: `min_shared_shingles = 0` with unigram shingles. -/
def c7params : ComparisonParams :=
  { defaultParams with ngram_size := 1, min_shared_shingles := 0 }

/-- The source-range overlap `O` used by `merge_two_edges` (the local
`overlap_source` variable of src/merge.rs). -/
def overlap_source (a b : ReuseEdge) : ℕ :=
  calculate_overlap_size a.source_global_start a.source_global_end
    b.source_global_start b.source_global_end

/-- Retention invariant of the subsumption filter: no retained edge is
contained (same book pair) in a retained edge of strictly greater
`aligned_length`. -/
def NoStrictContainment (acc : List ReuseEdge) : Prop :=
  ∀ E F, E ∈ acc → F ∈ acc → subsumes E F = true →
    ¬ (F.aligned_length < E.aligned_length)

/-- C7 fixture: bigram shingles with threshold 2 (for the witness of the
exact-characterization theorem). -/
def c7wparams : ComparisonParams :=
  { defaultParams with ngram_size := 2, min_shared_shingles := 2 }

/-- The mode-specific similarity of an accepted alignment as the spec defines
it (§4.6 acceptance gate 2), with the `0/0` case taking the value `0` per the
spec's zero-denominator convention (§7). -/
def modeSimilarity (mode : MatchMode) (al : Alignment)
    (lemmas_a lemmas_b roots_a roots_b : List ℕ) : ℚ :=
  match mode with
  | .Lemma => (al.lemma_matches : ℚ) / (al.aligned_pairs.length : ℚ)
  | .Root =>
    (count_root_matches al.aligned_pairs lemmas_a lemmas_b roots_a roots_b : ℚ) /
      (al.aligned_pairs.length : ℚ)
  | .Combined =>
    ((al.lemma_matches : ℚ) + (1 / 2) * (al.root_only_matches : ℚ)) /
      (al.aligned_pairs.length : ℚ)

/-! ## Theorems -/

theorem f32ToU32_eq_floor_toNat {q : ℚ} (h1 : q < (U32MOD : ℚ)) :
    f32ToU32 q = ⌊q⌋.toNat := by
  have hfl : ⌊q⌋ < (U32MOD : ℤ) := by
    rw [Int.floor_lt]
    exact_mod_cast h1
  have : ⌊q⌋.toNat ≤ 4294967295 := by
    simp [U32MOD] at hfl
    omega
  simp [f32ToU32, Nat.min_eq_right this]

theorem merge_lemma_matches_def (a b : ReuseEdge) :
    (merge_two_edges a b).lemma_matches =
      u32of (a.lemma_matches + b.lemma_matches) -
        f32ToU32 ((overlap_source a b : ℚ) * a.lemma_similarity) := rfl

theorem merge_substitutions_def (a b : ReuseEdge) :
    (merge_two_edges a b).substitutions =
      u32of (a.substitutions + b.substitutions) -
        (if 0 < a.aligned_length then
          f32ToU32 ((overlap_source a b : ℚ) *
            ((a.substitutions : ℚ) / (a.aligned_length : ℚ)))
        else 0) := rfl

theorem merge_root_only_def (a b : ReuseEdge) :
    (merge_two_edges a b).root_only_matches =
      u32of (a.root_only_matches + b.root_only_matches) -
        (if 0 < a.aligned_length then
          f32ToU32 ((overlap_source a b : ℚ) *
            ((a.root_only_matches : ℚ) / (a.aligned_length : ℚ)))
        else 0) := rfl

theorem merge_gaps_def (a b : ReuseEdge) :
    (merge_two_edges a b).gaps = u32of (a.gaps + b.gaps) / 2 := rfl

theorem sat_sub_floor_eq (x : ℕ) (q : ℚ) (hx : x < U32MOD) (hq : 0 ≤ q)
    (hqb : q < (U32MOD : ℚ)) :
    ((u32of x - f32ToU32 q : ℕ) : ℤ) = max 0 ((x : ℤ) - ⌊q⌋) := by
  unfold U32MOD at hx
  rw [f32ToU32_eq_floor_toNat hqb, u32of, U32MOD, Nat.mod_eq_of_lt hx]
  have h0 : 0 ≤ ⌊q⌋ := Int.floor_nonneg.mpr hq
  omega

/-- C1 (counterexample): at overlap `5` and `lemma_similarity = 3/4` the
source truncates `5 · 3/4 = 3.75` to `3` (merged count `13`), while the spec
formula rounds it to `4` (merged count `12`). -/
theorem C1_counterexample :
    ((merge_two_edges c1a c1b).lemma_matches : ℤ) ≠
      max 0 ((c1a.lemma_matches + c1b.lemma_matches : ℤ) -
        round ((calculate_overlap_size c1a.source_global_start c1a.source_global_end
          c1b.source_global_start c1b.source_global_end : ℚ) * c1a.lemma_similarity)) := by
  with_unfolding_all decide

/-- C1 (amended): the overlap-merge count combination follows the spec
formulas with the product `O · rate` truncated toward zero (the `as u32` cast)
instead of rounded: `lemma_matches = (a + b ∸ ⌊O · a.lemma_similarity⌋)`
saturating at 0, substitutions and root-only matches analogously with `a`'s
per-`aligned_length` rates, and `gaps = (a.gaps + b.gaps) / 2` under integer
division.  The boundedness hypotheses keep the `u32` arithmetic away from
wrap-around and cast saturation. -/
theorem C1_merge_count_formulas (a b : ReuseEdge)
    (hm : a.lemma_matches + b.lemma_matches < U32MOD)
    (hs : a.substitutions + b.substitutions < U32MOD)
    (hr : a.root_only_matches + b.root_only_matches < U32MOD)
    (hg : a.gaps + b.gaps < U32MOD)
    (hsim : 0 ≤ a.lemma_similarity)
    (hal : 0 < a.aligned_length)
    (hb1 : (overlap_source a b : ℚ) * a.lemma_similarity < (U32MOD : ℚ))
    (hb2 : (overlap_source a b : ℚ) *
      ((a.substitutions : ℚ) / (a.aligned_length : ℚ)) < (U32MOD : ℚ))
    (hb3 : (overlap_source a b : ℚ) *
      ((a.root_only_matches : ℚ) / (a.aligned_length : ℚ)) < (U32MOD : ℚ)) :
    ((merge_two_edges a b).lemma_matches : ℤ) =
      max 0 ((a.lemma_matches + b.lemma_matches : ℤ) -
        ⌊(overlap_source a b : ℚ) * a.lemma_similarity⌋) ∧
    ((merge_two_edges a b).substitutions : ℤ) =
      max 0 ((a.substitutions + b.substitutions : ℤ) -
        ⌊(overlap_source a b : ℚ) *
          ((a.substitutions : ℚ) / (a.aligned_length : ℚ))⌋) ∧
    ((merge_two_edges a b).root_only_matches : ℤ) =
      max 0 ((a.root_only_matches + b.root_only_matches : ℤ) -
        ⌊(overlap_source a b : ℚ) *
          ((a.root_only_matches : ℚ) / (a.aligned_length : ℚ))⌋) ∧
    (merge_two_edges a b).gaps = (a.gaps + b.gaps) / 2 := by
  refine ⟨?_, ?_, ?_, ?_⟩
  · rw [merge_lemma_matches_def]
    have := sat_sub_floor_eq (a.lemma_matches + b.lemma_matches)
      ((overlap_source a b : ℚ) * a.lemma_similarity) hm
      (mul_nonneg (Nat.cast_nonneg _) hsim) hb1
    push_cast at this ⊢
    exact this
  · rw [merge_substitutions_def, if_pos hal]
    have := sat_sub_floor_eq (a.substitutions + b.substitutions)
      ((overlap_source a b : ℚ) * ((a.substitutions : ℚ) / (a.aligned_length : ℚ))) hs
      (mul_nonneg (Nat.cast_nonneg _) (div_nonneg (Nat.cast_nonneg _) (Nat.cast_nonneg _))) hb2
    push_cast at this ⊢
    exact this
  · rw [merge_root_only_def, if_pos hal]
    have := sat_sub_floor_eq (a.root_only_matches + b.root_only_matches)
      ((overlap_source a b : ℚ) * ((a.root_only_matches : ℚ) / (a.aligned_length : ℚ))) hr
      (mul_nonneg (Nat.cast_nonneg _) (div_nonneg (Nat.cast_nonneg _) (Nat.cast_nonneg _))) hb3
    push_cast at this ⊢
    exact this
  · unfold U32MOD at hg
    rw [merge_gaps_def, u32of, U32MOD, Nat.mod_eq_of_lt hg]

theorem C1_witness :
    (c1a.lemma_matches + c1b.lemma_matches < U32MOD) ∧
    (0 ≤ c1a.lemma_similarity) ∧ (0 < c1a.aligned_length) ∧
    ((merge_two_edges c1a c1b).lemma_matches : ℤ) =
      max 0 ((c1a.lemma_matches + c1b.lemma_matches : ℤ) -
        ⌊(overlap_source c1a c1b : ℚ) * c1a.lemma_similarity⌋) :=
  ⟨by with_unfolding_all decide, by with_unfolding_all decide, by with_unfolding_all decide,
   (C1_merge_count_formulas c1a c1b (by with_unfolding_all decide)
     (by with_unfolding_all decide) (by with_unfolding_all decide)
     (by with_unfolding_all decide) (by with_unfolding_all decide)
     (by with_unfolding_all decide) (by with_unfolding_all decide)
     (by with_unfolding_all decide) (by with_unfolding_all decide)).1⟩

theorem merged_aligned_length_mod (a b : ReuseEdge) :
    (merge_two_edges a b).aligned_length =
      u32of ((merge_two_edges a b).source_global_end -
        (merge_two_edges a b).source_global_start) := rfl

/-- C10: a merged edge's `aligned_length` is exactly the length of the merged
source range (the `u32` cast is the identity below `2^32`), independent of the
inputs' `aligned_length`, match, substitution, and gap counts.  Both the
overlap merge and the adjacency merge combine edges through
`merge_two_edges`. -/
theorem C10_merged_aligned_length (a b : ReuseEdge)
    (h : (merge_two_edges a b).source_global_end -
      (merge_two_edges a b).source_global_start < U32MOD) :
    (merge_two_edges a b).aligned_length =
      (merge_two_edges a b).source_global_end -
        (merge_two_edges a b).source_global_start := by
  rw [merged_aligned_length_mod]
  exact Nat.mod_eq_of_lt h

theorem C10_witness :
    ((merge_two_edges c1a c1b).source_global_end -
      (merge_two_edges c1a c1b).source_global_start < U32MOD) ∧
    (merge_two_edges c1a c1b).aligned_length =
      (merge_two_edges c1a c1b).source_global_end -
        (merge_two_edges c1a c1b).source_global_start :=
  ⟨by with_unfolding_all decide,
   C10_merged_aligned_length c1a c1b (by with_unfolding_all decide)⟩

theorem mergeStep_length_le (acc : List ReuseEdge) (e : ReuseEdge) :
    (mergeStep acc e).length ≤ acc.length + 1 := by
  cases hl : acc.getLast? with
  | none => simp [mergeStep, hl]
  | some last =>
    simp only [mergeStep, hl]
    split
    · rw [List.length_append, List.length_dropLast, List.length_singleton]
      omega
    · simp

theorem foldl_mergeStep_length (l : List ReuseEdge) :
    ∀ acc, (l.foldl mergeStep acc).length ≤ acc.length + l.length := by
  induction l with
  | nil => simp
  | cons x t ih =>
    intro acc
    calc ((x :: t).foldl mergeStep acc).length
        = (t.foldl mergeStep (mergeStep acc x)).length := rfl
      _ ≤ (mergeStep acc x).length + t.length := ih _
      _ ≤ (acc.length + 1) + t.length :=
          Nat.add_le_add_right (mergeStep_length_le acc x) _
      _ = acc.length + (x :: t).length := by simp; omega

theorem merge_overlapping_edges_length_le (edges : List ReuseEdge) :
    (merge_overlapping_edges edges).length ≤ edges.length := by
  unfold merge_overlapping_edges
  split
  · exact Nat.le_refl _
  · calc ((List.insertionSort overlapSortLE edges).foldl mergeStep []).length
        ≤ ([] : List ReuseEdge).length +
            (List.insertionSort overlapSortLE edges).length :=
          foldl_mergeStep_length _ []
    _ = edges.length := by
        simp [(List.perm_insertionSort overlapSortLE edges).length_eq]

/-- C3 (amended): re-running the overlap merge on its own output never grows
the edge list (each sweep step retains or merges, never splits); the run is
not in general a fixed point, as `C3_counterexample` shows. -/
theorem C3_merge_rerun_no_increase (edges : List ReuseEdge) :
    (merge_overlapping_edges (merge_overlapping_edges edges)).length ≤
      (merge_overlapping_edges edges).length :=
  merge_overlapping_edges_length_le _

/-- C3 (counterexample): for `c3edges`, the first merge pass leaves two edges
that overlap in both ranges (merging the third edge into the second extends
the second back over the first), so a second pass merges them into one edge
and the output is not a fixed point. -/
theorem C3_counterexample :
    merge_overlapping_edges (merge_overlapping_edges c3edges) ≠
      merge_overlapping_edges c3edges := fun h =>
  absurd (congrArg List.length h) (by with_unfolding_all decide)

/-- C2 (amended): a non-empty stream strictly shorter than `window_size`
always yields exactly one window covering the whole stream — the source does
not consult `min_length` in this branch. -/
theorem C2_small_stream_window (p : ComparisonParams) :
    (∀ stream : BookLemmaStream, stream.flat_lemmas ≠ [] →
      stream.flat_lemmas.length < p.window_size →
      (generate_windows stream p).map (fun w => (w.global_start, w.global_end)) =
        [(0, stream.flat_lemmas.length)]) ∧
    (∀ stream : BookTokenStream, stream.flat_lemma_ids ≠ [] →
      stream.flat_lemma_ids.length < p.window_size →
      (generate_windows_with_roots stream p).map
        (fun w => (w.global_start, w.global_end)) =
        [(0, stream.flat_lemma_ids.length)]) := by
  constructor
  · intro stream hne hlt
    have h0 : stream.flat_lemmas.length ≠ 0 := by simpa using hne
    simp [generate_windows, generate_windows_core, h0, hlt]
  · intro stream hne hlt
    have h0 : stream.flat_lemma_ids.length ≠ 0 := by simpa using hne
    simp [generate_windows_with_roots, generate_windows_core, h0, hlt]

/-- C2 (counterexample): a stream of 3 lemmas is non-empty, below
`min_length = 10` and below `window_size = 275`, yet the windower emits one
window — the claim's "emits no window when the length is below `min_length`"
half fails. -/
theorem C2_counterexample :
    c2stream.flat_lemmas.length ≠ 0 ∧
    c2stream.flat_lemmas.length < defaultParams.min_length ∧
    c2stream.flat_lemmas.length < defaultParams.window_size ∧
    (generate_windows c2stream defaultParams).length = 1 := by
  with_unfolding_all decide

theorem C2_witness :
    (c2stream.flat_lemmas ≠ [] ∧
      c2stream.flat_lemmas.length < defaultParams.window_size) ∧
    (generate_windows c2stream defaultParams).map
      (fun w => (w.global_start, w.global_end)) =
      [(0, c2stream.flat_lemmas.length)] :=
  ⟨⟨by with_unfolding_all decide, by with_unfolding_all decide⟩,
   (C2_small_stream_window defaultParams).1 c2stream
     (by with_unfolding_all decide) (by with_unfolding_all decide)⟩

theorem retainStep_preserves (acc : List ReuseEdge) (x : ReuseEdge)
    (hInv : NoStrictContainment acc)
    (hle : ∀ a ∈ acc, x.aligned_length ≤ a.aligned_length) :
    NoStrictContainment (retainStep acc x) := by
  unfold retainStep
  split
  · exact hInv
  · rename_i hany
    rw [Bool.not_eq_true, List.any_eq_false] at hany
    intro E F hE hF hsub
    rw [List.mem_append, List.mem_singleton] at hE hF
    rcases hE with hE | rfl
    · rcases hF with hF | rfl
      · exact hInv E F hE hF hsub
      · exact absurd hsub (by simpa using hany E hE)
    · rcases hF with hF | rfl
      · exact fun hlt => absurd (hle F hF) (by omega)
      · omega

theorem foldl_retainStep_inv (l : List ReuseEdge) :
    ∀ acc, NoStrictContainment acc →
      (∀ a ∈ acc, ∀ y ∈ l, y.aligned_length ≤ a.aligned_length) →
      l.Pairwise alignedLenDescLE →
      NoStrictContainment (l.foldl retainStep acc) := by
  induction l with
  | nil => intro acc hInv _ _; exact hInv
  | cons x t ih =>
    intro acc hInv hle hsort
    rw [List.foldl_cons]
    have hxt : ∀ y ∈ t, y.aligned_length ≤ x.aligned_length :=
      fun y hy => (List.pairwise_cons.mp hsort).1 y hy
    refine ih (retainStep acc x) ?_ ?_ (List.pairwise_cons.mp hsort).2
    · exact retainStep_preserves acc x hInv
        (fun a ha => hle a ha x (List.mem_cons_self x t))
    · intro a ha y hy
      unfold retainStep at ha
      split at ha
      · exact hle a ha y (List.mem_cons_of_mem x hy)
      · rw [List.mem_append, List.mem_singleton] at ha
        rcases ha with ha | rfl
        · exact hle a ha y (List.mem_cons_of_mem x hy)
        · exact hxt y hy

/-- C9 (amended): after `remove_subsumed_edges`, no retained edge is contained
(same book pair, both ranges) in another retained edge of **strictly greater**
`aligned_length`.  The unrestricted claim fails (`C9_counterexample`): the
sweep only checks containment against edges of larger-or-equal
`aligned_length`, a stored field that need not reflect the ranges. -/
theorem C9_no_strictly_larger_container (edges : List ReuseEdge)
    (E F : ReuseEdge) (hE : E ∈ remove_subsumed_edges edges)
    (hF : F ∈ remove_subsumed_edges edges) (hsub : subsumes E F = true) :
    ¬ (F.aligned_length < E.aligned_length) := by
  unfold remove_subsumed_edges at hE hF
  split at hE
  · rename_i hlen
    rw [if_pos hlen] at hF
    cases edges with
    | nil => simp at hE
    | cons a t =>
      cases t with
      | nil =>
        rw [List.mem_singleton] at hE hF
        subst hE
        subst hF
        omega
      | cons b t2 => simp at hlen
  · rename_i hlen
    rw [if_neg hlen] at hF
    rw [(List.perm_insertionSort positionSortLE _).mem_iff] at hE hF
    have hsorted :
        (List.insertionSort alignedLenDescLE edges).Pairwise alignedLenDescLE :=
      List.sorted_insertionSort alignedLenDescLE edges
    exact foldl_retainStep_inv _ []
      (fun _ _ h _ _ => by simp at h)
      (fun _ h => by simp at h)
      hsorted E F hE hF hsub

/-- C9 (counterexample): `c9f` (ranges `[0,10) × [0,5)`, stored
`aligned_length = 100`) is processed before the edge `c9e`
(ranges `[0,10) × [0,10)`, `aligned_length = 50`) that contains it, so both
are retained and the output keeps an edge fully contained in another retained
edge of the same book pair. -/
theorem C9_counterexample :
    c9f ∈ remove_subsumed_edges [c9f, c9e] ∧
    c9e ∈ remove_subsumed_edges [c9f, c9e] ∧
    c9f ≠ c9e ∧
    subsumes c9e c9f = true := by
  with_unfolding_all decide

theorem C9_witness :
    (c9f ∈ remove_subsumed_edges [c9f] ∧ subsumes c9f c9f = true) ∧
    ¬ (c9f.aligned_length < c9f.aligned_length) :=
  ⟨⟨by with_unfolding_all decide, by with_unfolding_all decide⟩,
   C9_no_strictly_larger_container [c9f] c9f c9f
     (by with_unfolding_all decide) (by with_unfolding_all decide)
     (by with_unfolding_all decide)⟩

theorem align_sequences_nil_left (lemmas_b roots_a roots_b : List ℕ)
    (p : ComparisonParams) :
    align_sequences [] lemmas_b roots_a roots_b p = none := by
  simp [align_sequences]

theorem align_sequences_nil_right (lemmas_a roots_a roots_b : List ℕ)
    (p : ComparisonParams) :
    align_sequences lemmas_a [] roots_a roots_b p = none := by
  simp [align_sequences]

theorem align_sequences_weighted_nil_left (lemmas_b roots_a roots_b : List ℕ)
    (wa wb : List ℚ) (p : ComparisonParams) :
    align_sequences_weighted [] lemmas_b roots_a roots_b wa wb p = none := by
  simp [align_sequences_weighted]

theorem align_sequences_weighted_nil_right (lemmas_a roots_a roots_b : List ℕ)
    (wa wb : List ℚ) (p : ComparisonParams) :
    align_sequences_weighted lemmas_a [] roots_a roots_b wa wb p = none := by
  simp [align_sequences_weighted]

theorem generate_windows_empty (stream : BookLemmaStream)
    (p : ComparisonParams) (h : stream.flat_lemmas = []) :
    generate_windows stream p = [] := by
  simp [generate_windows, generate_windows_core, h]

theorem find_candidate_pairs_nil_left (wsB : List Window)
    (p : ComparisonParams) : find_candidate_pairs [] wsB p = [] := by
  simp [find_candidate_pairs, generate_all_pairs]

theorem find_candidate_pairs_nil_right (wsA : List Window)
    (p : ComparisonParams) : find_candidate_pairs wsA [] p = [] := by
  unfold find_candidate_pairs generate_all_pairs
  split
  · simp
  · simp
    intro x _
    cases wsA[x]? <;> rfl

/-- C8: the alignment stage returns `none` (not an error) on empty input on
either side, for both the unweighted and the weighted aligner; and a full
comparison in which either stream is empty yields the empty edge list. -/
theorem C8_never_raises :
    (∀ (lemmas_b roots_a roots_b : List ℕ) (p : ComparisonParams),
      align_sequences [] lemmas_b roots_a roots_b p = none ∧
      align_sequences lemmas_b [] roots_a roots_b p = none) ∧
    (∀ (lemmas_b roots_a roots_b : List ℕ) (wa wb : List ℚ)
        (p : ComparisonParams),
      align_sequences_weighted [] lemmas_b roots_a roots_b wa wb p = none ∧
      align_sequences_weighted lemmas_b [] roots_a roots_b wa wb p = none) ∧
    (∀ (stream_a stream_b : BookLemmaStream) (p : ComparisonParams),
      stream_a.flat_lemmas = [] ∨ stream_b.flat_lemmas = [] →
      compare_edges stream_a stream_b p = []) := by
  refine ⟨fun lb ra rb p => ⟨align_sequences_nil_left lb ra rb p,
      align_sequences_nil_right lb ra rb p⟩,
    fun lb ra rb wa wb p => ⟨align_sequences_weighted_nil_left lb ra rb wa wb p,
      align_sequences_weighted_nil_right lb ra rb wa wb p⟩,
    fun sa sb p h => ?_⟩
  have hc : find_candidate_pairs (generate_windows sa p)
      (generate_windows sb p) p = [] := by
    rcases h with h | h
    · rw [generate_windows_empty sa p h]
      exact find_candidate_pairs_nil_left _ p
    · rw [generate_windows_empty sb p h]
      exact find_candidate_pairs_nil_right _ p
  simp only [compare_edges]
  rw [hc]
  simp [merge_overlapping_edges, filter_edges_by_params]

theorem C8_witness :
    compare_edges emptyStream c2stream defaultParams = [] :=
  C8_never_raises.2.2 emptyStream c2stream defaultParams (Or.inl rfl)

theorem tracebackAux_counts_aux (rows : List (List ℤ)) (la lb ra rb : List ℕ)
    (p : ComparisonParams) :
    ∀ (n i j : ℕ), i + j ≤ n → ∀ (st : TracebackState),
      (tracebackAux rows la lb ra rb p i j st).aligned_pairs.length +
        (st.lemma_matches + st.substitutions + st.root_only_matches) =
      ((tracebackAux rows la lb ra rb p i j st).lemma_matches +
        (tracebackAux rows la lb ra rb p i j st).substitutions +
        (tracebackAux rows la lb ra rb p i j st).root_only_matches) +
        st.aligned_pairs.length := by
  intro n
  induction n with
  | zero =>
    intro i j hij st
    rw [tracebackAux, dif_neg (fun hcon => absurd hcon.1 (by omega))]
    omega
  | succ n ihn =>
    intro i j hij st
    rw [tracebackAux]
    by_cases h : 0 < i ∧ 0 < j ∧ 0 < getH rows i j
    · rw [dif_pos h]
      obtain ⟨hi, hj, -⟩ := h
      dsimp only
      split_ifs with h1 h2 h3 h4
      · have hih := ihn (i - 1) (j - 1) (by omega)
          ⟨st.aligned_pairs ++ [(i - 1, j - 1)], st.lemma_matches + 1,
            st.substitutions, st.root_only_matches, st.gaps, st.match_weight_sum⟩
        simp only [List.length_append, List.length_singleton] at hih ⊢
        omega
      · have hih := ihn (i - 1) (j - 1) (by omega)
          ⟨st.aligned_pairs ++ [(i - 1, j - 1)], st.lemma_matches,
            st.substitutions, st.root_only_matches + 1, st.gaps, st.match_weight_sum⟩
        simp only [List.length_append, List.length_singleton] at hih ⊢
        omega
      · have hih := ihn (i - 1) (j - 1) (by omega)
          ⟨st.aligned_pairs ++ [(i - 1, j - 1)], st.lemma_matches,
            st.substitutions + 1, st.root_only_matches, st.gaps, st.match_weight_sum⟩
        simp only [List.length_append, List.length_singleton] at hih ⊢
        omega
      · exact ihn (i - 1) j (by omega) ⟨st.aligned_pairs, st.lemma_matches,
          st.substitutions, st.root_only_matches, st.gaps + 1, st.match_weight_sum⟩
      · exact ihn i (j - 1) (by omega) ⟨st.aligned_pairs, st.lemma_matches,
          st.substitutions, st.root_only_matches, st.gaps + 1, st.match_weight_sum⟩
    · rw [dif_neg h]
      omega

theorem traceback_result_counts (rows : List (List ℤ))
    (la lb ra rb : List ℕ) (p : ComparisonParams) (i j : ℕ) :
    (tracebackAux rows la lb ra rb p i j ⟨[], 0, 0, 0, 0, 0⟩).aligned_pairs.length =
      (tracebackAux rows la lb ra rb p i j ⟨[], 0, 0, 0, 0, 0⟩).lemma_matches +
        (tracebackAux rows la lb ra rb p i j ⟨[], 0, 0, 0, 0, 0⟩).substitutions +
        (tracebackAux rows la lb ra rb p i j ⟨[], 0, 0, 0, 0, 0⟩).root_only_matches := by
  have h := tracebackAux_counts_aux rows la lb ra rb p (i + j) i j le_rfl
    ⟨[], 0, 0, 0, 0, 0⟩
  simpa using h

theorem alignment_to_edge_aligned_length (wa wb : Window) (al : Alignment)
    (id : ℕ) (h : al.aligned_pairs.length + al.gaps < U32MOD) :
    (alignment_to_edge wa wb al id).aligned_length =
      al.aligned_pairs.length + al.gaps := by
  show u32of (al.aligned_pairs.length + al.gaps) = _
  unfold U32MOD at h
  rw [u32of, U32MOD]
  exact Nat.mod_eq_of_lt h

/-- C5: every alignment returned by `align_sequences` satisfies
`aligned_pairs.len() = lemma_matches + substitutions + root_only_matches`
(each diagonal traceback step records one pair and bumps exactly one
counter), and the edge built from it has
`aligned_length = aligned_pairs.len() + gaps` (below the `u32` cast bound). -/
theorem C5_alignment_count_invariants (lemmas_a lemmas_b roots_a roots_b : List ℕ)
    (p : ComparisonParams) (al : Alignment)
    (h : align_sequences lemmas_a lemmas_b roots_a roots_b p = some al) :
    al.aligned_pairs.length =
      al.lemma_matches + al.substitutions + al.root_only_matches ∧
    (∀ (wa wb : Window) (id : ℕ),
      al.aligned_pairs.length + al.gaps < U32MOD →
      (alignment_to_edge wa wb al id).aligned_length =
        al.aligned_pairs.length + al.gaps) := by
  refine ⟨?_, fun wa wb id hlt => alignment_to_edge_aligned_length wa wb al id hlt⟩
  simp only [align_sequences] at h
  split at h
  · exact absurd h (by simp)
  · split at h
    · exact absurd h (by simp)
    · split at h
      · exact absurd h (by simp)
      · split at h
        · exact absurd h (by simp)
        · rw [Option.some.injEq] at h
          subst h
          dsimp only
          rw [List.length_reverse]
          exact traceback_result_counts _ _ _ _ _ _ _ _

theorem C5_witness :
    (align_sequences [1, 2, 3] [1, 2, 3] [0, 0, 0] [0, 0, 0] c5params =
      some c5al) ∧
    (c5al.aligned_pairs.length + c5al.gaps < U32MOD) ∧
    c5al.aligned_pairs.length =
      c5al.lemma_matches + c5al.substitutions + c5al.root_only_matches ∧
    (alignment_to_edge (mkWindow 0 [1, 2, 3]) (mkWindow 1 [1, 2, 3]) c5al 0).aligned_length =
      c5al.aligned_pairs.length + c5al.gaps :=
  have h : align_sequences [1, 2, 3] [1, 2, 3] [0, 0, 0] [0, 0, 0] c5params =
      some c5al := by with_unfolding_all decide
  have hinv := C5_alignment_count_invariants [1, 2, 3] [1, 2, 3] [0, 0, 0] [0, 0, 0]
    c5params c5al h
  ⟨h, by with_unfolding_all decide, hinv.1,
    hinv.2 (mkWindow 0 [1, 2, 3]) (mkWindow 1 [1, 2, 3]) 0
      (by with_unfolding_all decide)⟩

theorem align_accept_gates (p : ComparisonParams) (hmin : 1 ≤ p.min_length)
    (lemmas_a lemmas_b roots_a roots_b : List ℕ) (al : Alignment)
    (h : align_sequences lemmas_a lemmas_b roots_a roots_b p = some al) :
    p.min_length ≤ al.aligned_pairs.length ∧
    p.min_similarity ≤ modeSimilarity p.mode al lemmas_a lemmas_b roots_a roots_b := by
  simp only [align_sequences] at h
  split at h
  · exact absurd h (by simp)
  · split at h
    · exact absurd h (by simp)
    · split at h
      · exact absurd h (by simp)
      · rename_i hlen
        split at h
        · exact absurd h (by simp)
        · rename_i hgate
          rw [Option.some.injEq] at h
          subst h
          rw [not_lt] at hlen
          have hpos := Nat.lt_of_lt_of_le (show 0 < p.min_length by omega) hlen
          refine ⟨hlen, ?_⟩
          rw [not_and] at hgate
          have hsim := hgate hpos
          rw [not_lt] at hsim
          cases hmode : p.mode with
          | Lemma =>
            simp only [hmode] at hsim
            simpa [modeSimilarity] using hsim
          | Root =>
            simp only [hmode] at hsim
            simpa [modeSimilarity] using hsim
          | Combined =>
            simp only [hmode] at hsim
            simpa [modeSimilarity] using hsim

theorem align_weighted_accept_gates (p : ComparisonParams)
    (hmin : 1 ≤ p.min_length)
    (lemmas_a lemmas_b roots_a roots_b : List ℕ) (weights_a weights_b : List ℚ)
    (al : Alignment)
    (h : align_sequences_weighted lemmas_a lemmas_b roots_a roots_b weights_a
      weights_b p = some al) :
    p.min_length ≤ al.aligned_pairs.length ∧
    p.min_similarity ≤ modeSimilarity p.mode al lemmas_a lemmas_b roots_a roots_b := by
  simp only [align_sequences_weighted] at h
  split at h
  · exact absurd h (by simp)
  · split at h
    · exact absurd h (by simp)
    · split at h
      · exact absurd h (by simp)
      · rename_i hlen
        split at h
        · exact absurd h (by simp)
        · rename_i hgate
          rw [Option.some.injEq] at h
          subst h
          rw [not_lt] at hlen
          have hpos := Nat.lt_of_lt_of_le (show 0 < p.min_length by omega) hlen
          refine ⟨hlen, ?_⟩
          rw [not_and] at hgate
          have hsim := hgate hpos
          rw [not_lt] at hsim
          cases hmode : p.mode with
          | Lemma =>
            simp only [hmode] at hsim
            simpa [modeSimilarity] using hsim
          | Root =>
            simp only [hmode] at hsim
            simpa [modeSimilarity] using hsim
          | Combined =>
            simp only [hmode] at hsim
            simpa [modeSimilarity] using hsim

/-- C4 (amended): with `min_length ≥ 1`, every alignment returned by
`align_sequences` or `align_sequences_weighted` has at least `min_length`
aligned pairs and mode-specific similarity at least `min_similarity`
(similarity per `modeSimilarity`: lemma ratio in Lemma mode, the ratio of
pairs with equal non-zero roots — lemma matches included — in Root mode, and
`(lemma + 0.5·root_only) / len` in Combined mode).  For `min_length = 0` the
claim fails: an accepted empty alignment has NaN similarity, and NaN passes
the `<` gate (`C4_counterexample`). -/
theorem C4_acceptance_gates (p : ComparisonParams) (hmin : 1 ≤ p.min_length) :
    (∀ (lemmas_a lemmas_b roots_a roots_b : List ℕ) (al : Alignment),
      align_sequences lemmas_a lemmas_b roots_a roots_b p = some al →
      p.min_length ≤ al.aligned_pairs.length ∧
      p.min_similarity ≤
        modeSimilarity p.mode al lemmas_a lemmas_b roots_a roots_b) ∧
    (∀ (lemmas_a lemmas_b roots_a roots_b : List ℕ)
        (weights_a weights_b : List ℚ) (al : Alignment),
      align_sequences_weighted lemmas_a lemmas_b roots_a roots_b weights_a
        weights_b p = some al →
      p.min_length ≤ al.aligned_pairs.length ∧
      p.min_similarity ≤
        modeSimilarity p.mode al lemmas_a lemmas_b roots_a roots_b) :=
  ⟨fun la lb ra rb al h => align_accept_gates p hmin la lb ra rb al h,
   fun la lb ra rb wa wb al h =>
     align_weighted_accept_gates p hmin la lb ra rb wa wb al h⟩

/-- C4 (counterexample): with `min_length = 0` and `min_similarity = 1/2`,
`align_sequences [1] [2] …` accepts the empty alignment (its `f32` similarity
is `0/0 = NaN`, and `NaN < 1/2` is false), whose similarity under the spec's
zero-denominator convention is `0 < 1/2`. -/
theorem C4_counterexample :
    align_sequences [1] [2] [0] [0] c4params = some c4al ∧
    ¬ (c4params.min_similarity ≤
        modeSimilarity c4params.mode c4al [1] [2] [0] [0]) := by
  with_unfolding_all decide

theorem C4_witness :
    (1 ≤ c5params.min_length) ∧
    (c5params.min_length ≤ c5al.aligned_pairs.length ∧
      c5params.min_similarity ≤ modeSimilarity c5params.mode c5al
        [1, 2, 3] [1, 2, 3] [0, 0, 0] [0, 0, 0]) :=
  ⟨by with_unfolding_all decide,
   (C4_acceptance_gates c5params (by with_unfolding_all decide)).1
     [1, 2, 3] [1, 2, 3] [0, 0, 0] [0, 0, 0] c5al
     (by with_unfolding_all decide)⟩

theorem bumpCount_length (counts : List ℕ) (a : ℕ) :
    (bumpCount counts a).length = counts.length := by
  unfold bumpCount
  split <;> simp

theorem foldl_bumpCount_length (lemmas : List ℕ) :
    ∀ counts : List ℕ, (lemmas.foldl bumpCount counts).length = counts.length := by
  induction lemmas with
  | nil => intro counts; rfl
  | cons a t ih =>
    intro counts
    rw [List.foldl_cons, ih, bumpCount_length]

theorem foldl_bumpCount_getD (lemmas : List ℕ) :
    ∀ (counts : List ℕ) (l : ℕ), l < counts.length →
      (lemmas.foldl bumpCount counts).getD l 0 =
        counts.getD l 0 + lemmas.count l := by
  induction lemmas with
  | nil => intro counts l _; simp
  | cons a t ih =>
    intro counts l hl
    rw [List.foldl_cons]
    rw [ih (bumpCount counts a) l (by rw [bumpCount_length]; exact hl)]
    by_cases hal : a = l
    · subst hal
      rw [List.count_cons_self]
      have hset : (bumpCount counts a).getD a 0 = counts.getD a 0 + 1 := by
        unfold bumpCount
        rw [if_pos hl]
        rw [List.getD_eq_getElem?_getD, List.getElem?_set_self hl]
        simp
      rw [hset]
      omega
    · rw [List.count_cons_of_ne (fun hh => hal hh.symm)]
      have hset : (bumpCount counts a).getD l 0 = counts.getD l 0 := by
        unfold bumpCount
        split
        · rw [List.getD_eq_getElem?_getD, List.getElem?_set_ne hal,
            ← List.getD_eq_getElem?_getD]
        · rfl
      rw [hset]

theorem build_lemma_weights_length (lg : ℚ → ℚ) (lemmas : List ℕ) (maxId : ℕ) :
    (build_lemma_weights lg lemmas maxId).length = maxId + 1 := by
  unfold build_lemma_weights
  rw [List.length_map, foldl_bumpCount_length, List.length_replicate]

theorem build_lemma_weights_getD (lg : ℚ → ℚ) (lemmas : List ℕ) (maxId l : ℕ)
    (h : l ≤ maxId) :
    (build_lemma_weights lg lemmas maxId).getD l 0 =
      if 0 < lemmas.count l then
        clampQ (lg ((lemmas.length : ℚ) / (lemmas.count l : ℚ))) (1 / 2) 3
      else 0 := by
  have hlen : l < (lemmas.foldl bumpCount (List.replicate (maxId + 1) 0)).length := by
    rw [foldl_bumpCount_length, List.length_replicate]
    omega
  have hcnt : (lemmas.foldl bumpCount (List.replicate (maxId + 1) 0)).getD l 0 =
      lemmas.count l := by
    rw [foldl_bumpCount_getD lemmas _ l (by rw [List.length_replicate]; omega)]
    rw [List.getD_eq_getElem?_getD, List.getElem?_replicate]
    simp [Nat.lt_succ_of_le h]
  unfold build_lemma_weights
  rw [List.getD_eq_getElem?_getD, List.getElem?_map]
  rw [List.getElem?_eq_getElem hlen]
  simp only [Option.map_some', Option.getD_some]
  rw [List.getD_eq_getElem?_getD, List.getElem?_eq_getElem hlen,
    Option.getD_some] at hcnt
  rw [hcnt]

theorem clampQ_half_three_pos (x : ℚ) : 0 < clampQ x (1 / 2) 3 := by
  unfold clampQ
  split_ifs with h1 h2
  · norm_num
  · norm_num
  · linarith [not_lt.mp h1]

/-- C6: for a book lemma stream of length `N`, the effective IDF weight of a
lemma `l` with `df(l) > 0` inside the weight vector is
`clamp (ln (N / df l)) 0.5 3.0` (stated for an arbitrary embedding `lg` of the
`f32` natural logarithm), and the effective weight is `1.0` when `df(l) = 0`
or `l` lies outside the vector: the clamp keeps stored weights positive, so
`get_weight`'s `> 0` guard admits exactly the in-vocabulary lemmas. -/
theorem C6_idf_weight (lg : ℚ → ℚ) (lemma_ids : List ℕ) (max_lemma_id l : ℕ) :
    (l ≤ max_lemma_id → 0 < lemma_ids.count l →
      get_weight l (build_lemma_weights lg lemma_ids max_lemma_id) =
        clampQ (lg ((lemma_ids.length : ℚ) / (lemma_ids.count l : ℚ))) (1 / 2) 3) ∧
    ((lemma_ids.count l = 0 ∨ max_lemma_id < l) →
      get_weight l (build_lemma_weights lg lemma_ids max_lemma_id) = 1) := by
  constructor
  · intro hle hdf
    unfold get_weight
    rw [build_lemma_weights_getD lg lemma_ids max_lemma_id l hle, if_pos hdf]
    rw [if_pos]
    constructor
    · rw [build_lemma_weights_length]
      omega
    · exact clampQ_half_three_pos _
  · intro hcase
    unfold get_weight
    rcases hcase with hdf | hgt
    · by_cases hle : l ≤ max_lemma_id
      · rw [if_neg]
        intro hcon
        rw [build_lemma_weights_getD lg lemma_ids max_lemma_id l hle,
          if_neg (by omega)] at hcon
        exact absurd hcon.2 (by norm_num)
      · rw [if_neg]
        intro hcon
        rw [build_lemma_weights_length] at hcon
        omega
    · rw [if_neg]
      intro hcon
      rw [build_lemma_weights_length] at hcon
      omega

theorem C6_witness :
    ((3 : ℕ) ≤ 5 ∧ 0 < ([3, 3, 5] : List ℕ).count 3) ∧
    get_weight 3 (build_lemma_weights (fun _ => 1) [3, 3, 5] 5) =
      clampQ ((fun _ : ℚ => (1 : ℚ))
        ((([3, 3, 5] : List ℕ).length : ℚ) / ((([3, 3, 5] : List ℕ).count 3 : ℕ) : ℚ)))
        (1 / 2) 3 :=
  ⟨⟨by decide, by decide⟩,
   (C6_idf_weight (fun _ => 1) [3, 3, 5] 5 3).1 (by decide) (by decide)⟩

theorem generate_shingles_short (lemma_ids : List ℕ) (n : ℕ)
    (h : lemma_ids.length < n) : generate_shingles lemma_ids n = ∅ := by
  unfold generate_shingles
  rw [if_pos (Or.inl h)]

theorem mem_shingle_index (windows : List Window) (n : ℕ) (s : List ℕ)
    (idx : ℕ) :
    idx ∈ shingle_index windows n s ↔
      ∃ w, windows.get? idx = some w ∧ s ∈ generate_shingles w.lemma_ids n := by
  unfold shingle_index
  rw [List.mem_filter, List.mem_range]
  constructor
  · rintro ⟨hlt, hmem⟩
    cases hw : windows.get? idx with
    | none => rw [hw] at hmem; simp at hmem
    | some w =>
      rw [hw] at hmem
      simp at hmem
      exact ⟨w, rfl, hmem⟩
  · rintro ⟨w, hw, hmem⟩
    obtain ⟨hlt, -⟩ := List.get?_eq_some.mp hw
    refine ⟨hlt, ?_⟩
    rw [hw]
    simpa using hmem

theorem shared_count_eq_inter_card (wa : Window) (wsB : List Window)
    (n idx_b : ℕ) (wb : Window) (hb : wsB.get? idx_b = some wb) :
    shared_count wa wsB n idx_b =
      ((generate_shingles wa.lemma_ids n) ∩
        (generate_shingles wb.lemma_ids n)).card := by
  unfold shared_count
  congr 1
  ext s
  rw [Finset.mem_filter, Finset.mem_inter, mem_shingle_index]
  constructor
  · rintro ⟨hs, w, hw, hmem⟩
    rw [hb] at hw
    rw [Option.some.injEq] at hw
    subst hw
    exact ⟨hs, hmem⟩
  · rintro ⟨hs, hmem⟩
    exact ⟨hs, wb, hb, hmem⟩

theorem mem_find_candidate_pairs (wsA wsB : List Window) (p : ComparisonParams)
    (hb : p.brute_force = false) (ia ib : ℕ) :
    (ia, ib) ∈ find_candidate_pairs wsA wsB p ↔
      ∃ wa, wsA.get? ia = some wa ∧ ib < wsB.length ∧
        0 < shared_count wa wsB p.ngram_size ib ∧
        p.min_shared_shingles ≤ shared_count wa wsB p.ngram_size ib := by
  unfold find_candidate_pairs
  rw [if_neg (by simp [hb])]
  rw [List.mem_flatMap]
  constructor
  · rintro ⟨i, hi, hmem⟩
    rw [List.mem_range] at hi
    cases hw : wsA.get? i with
    | none => rw [hw] at hmem; simp at hmem
    | some wa =>
      rw [hw] at hmem
      rw [List.mem_map] at hmem
      obtain ⟨jb, hjb, heq⟩ := hmem
      rw [List.mem_filter, List.mem_range] at hjb
      have h1 : i = ia := congrArg Prod.fst heq
      have h2 : jb = ib := congrArg Prod.snd heq
      subst h1
      subst h2
      simp at hjb
      exact ⟨wa, hw, hjb.1, hjb.2.1, hjb.2.2⟩
  · rintro ⟨wa, hwa, hib, h1, h2⟩
    obtain ⟨hia, -⟩ := List.get?_eq_some.mp hwa
    refine ⟨ia, List.mem_range.mpr hia, ?_⟩
    rw [hwa]
    rw [List.mem_map]
    refine ⟨ib, List.mem_filter.mpr ⟨List.mem_range.mpr hib, ?_⟩, rfl⟩
    simp [h1, h2]

/-- C7 (amended): with `brute_force` unset and `min_shared_shingles ≥ 1`,
`find_candidate_pairs` emits exactly the pairs whose windows share at least
`min_shared_shingles` **distinct** shingles (the count is the cardinality of
the intersection of the two shingle sets), and a window shorter than
`ngram_size` has an empty shingle set and so appears in no pair.  For
`min_shared_shingles = 0` the claim fails (`C7_counterexample`): the
`shared_counts` map only has entries for windows with at least one probe hit,
so pairs sharing no shingle are never emitted although `0 ≥ 0`. -/
theorem C7_candidate_pairs_exact (wsA wsB : List Window) (p : ComparisonParams)
    (hb : p.brute_force = false) (hmin : 1 ≤ p.min_shared_shingles) :
    (∀ ia ib, (ia, ib) ∈ find_candidate_pairs wsA wsB p ↔
      ∃ wa, wsA.get? ia = some wa ∧ ∃ wb, wsB.get? ib = some wb ∧
        p.min_shared_shingles ≤
          ((generate_shingles wa.lemma_ids p.ngram_size) ∩
            (generate_shingles wb.lemma_ids p.ngram_size)).card) ∧
    (∀ ia wa, wsA.get? ia = some wa → wa.lemma_ids.length < p.ngram_size →
      ∀ ib, (ia, ib) ∉ find_candidate_pairs wsA wsB p) ∧
    (∀ ib wb, wsB.get? ib = some wb → wb.lemma_ids.length < p.ngram_size →
      ∀ ia, (ia, ib) ∉ find_candidate_pairs wsA wsB p) := by
  have hmain : ∀ ia ib, (ia, ib) ∈ find_candidate_pairs wsA wsB p ↔
      ∃ wa, wsA.get? ia = some wa ∧ ∃ wb, wsB.get? ib = some wb ∧
        p.min_shared_shingles ≤
          ((generate_shingles wa.lemma_ids p.ngram_size) ∩
            (generate_shingles wb.lemma_ids p.ngram_size)).card := by
    intro ia ib
    rw [mem_find_candidate_pairs wsA wsB p hb ia ib]
    constructor
    · rintro ⟨wa, hwa, hib, h1, h2⟩
      refine ⟨wa, hwa, wsB.get ⟨ib, hib⟩, List.get?_eq_get hib, ?_⟩
      rw [← shared_count_eq_inter_card wa wsB p.ngram_size ib _
        (List.get?_eq_get hib)]
      exact h2
    · rintro ⟨wa, hwa, wb, hwb, hcard⟩
      obtain ⟨hib, -⟩ := List.get?_eq_some.mp hwb
      have heq := shared_count_eq_inter_card wa wsB p.ngram_size ib wb hwb
      refine ⟨wa, hwa, hib, ?_, ?_⟩
      · rw [heq]; omega
      · rw [heq]; omega
  refine ⟨hmain, ?_, ?_⟩
  · intro ia wa hwa hshort ib hmem
    rw [hmain ia ib] at hmem
    obtain ⟨wa', hwa', wb, hwb, hcard⟩ := hmem
    rw [hwa] at hwa'
    rw [Option.some.injEq] at hwa'
    subst hwa'
    rw [generate_shingles_short _ _ hshort] at hcard
    simp at hcard
    omega
  · intro ib wb hwb hshort ia hmem
    rw [hmain ia ib] at hmem
    obtain ⟨wa, hwa, wb', hwb', hcard⟩ := hmem
    rw [hwb] at hwb'
    rw [Option.some.injEq] at hwb'
    subst hwb'
    rw [generate_shingles_short _ _ hshort] at hcard
    simp at hcard
    omega

/-- C7 (counterexample): with `min_shared_shingles = 0` and disjoint unigram
windows, the claim's threshold `0 ≤ shared` admits the pair `(0, 0)`, but the
filter does not emit it. -/
theorem C7_counterexample :
    c7params.brute_force = false ∧
    c7params.min_shared_shingles ≤
      ((generate_shingles (mkWindow 0 [1, 2]).lemma_ids c7params.ngram_size) ∩
        (generate_shingles (mkWindow 0 [3, 4]).lemma_ids c7params.ngram_size)).card ∧
    (0, 0) ∉ find_candidate_pairs [mkWindow 0 [1, 2]] [mkWindow 0 [3, 4]] c7params := by
  with_unfolding_all decide

theorem C7_witness :
    (c7wparams.brute_force = false ∧ 1 ≤ c7wparams.min_shared_shingles) ∧
    ((0, 0) ∈ find_candidate_pairs [mkWindow 0 [1, 2, 3]]
      [mkWindow 1 [1, 2, 3]] c7wparams ↔
      ∃ wa, ([mkWindow 0 [1, 2, 3]] : List Window).get? 0 = some wa ∧
        ∃ wb, ([mkWindow 1 [1, 2, 3]] : List Window).get? 0 = some wb ∧
          c7wparams.min_shared_shingles ≤
            ((generate_shingles wa.lemma_ids c7wparams.ngram_size) ∩
              (generate_shingles wb.lemma_ids c7wparams.ngram_size)).card) :=
  ⟨⟨by decide, by decide⟩,
   (C7_candidate_pairs_exact [mkWindow 0 [1, 2, 3]] [mkWindow 1 [1, 2, 3]]
     c7wparams (by decide) (by decide)).1 0 0⟩

end KashshafReuse
